import Mathlib

/-!
Shallow embedding, in Lean 4, of the core of the `aiinvoiceagent` repository:
the filename/ID utilities (`src/utils/helpers.py`), the fallback response
parser (`src/services/invoice_processor.py`, `_extract_fallback_data` and the
parse-dispatch of `process_invoice_image`), the single-file processor
(`process_single_file`), the batch sweep (`process_files`) and the statistics
computation (`get_statistics`).  Pure Python functions become Lean functions;
the stateful service methods become explicit state-passing functions on a
`ProcState` record; Python floats arising here (file sizes, amounts,
processing times) are exact binary fractions or parsed decimals, so they are
embedded as rationals; fallible code returns `Option`/`Except`.
-/

namespace Invoice

/-- Python whitespace class `\s` restricted to ASCII, as used by `re` on the
strings in this code base: space, tab, newline, carriage return, form feed,
vertical tab. -/
def isPySpace (c : Char) : Bool :=
  c = ' ' || c = '\t' || c = '\n' || c = '\x0d' || c = '\x0c' || c = '\x0b'

/-- Python `str.strip()` on ASCII text: remove leading and trailing
whitespace. -/
def pyStrip (s : String) : String :=
  String.mk (((s.data.dropWhile isPySpace).reverse.dropWhile isPySpace).reverse)

/-- Little-endian decimal digits of `n`, with explicit structural fuel
(`fuel ≥ n` suffices). Models the decimal rendering used by Python
f-strings for non-negative integers. -/
def decDigitsRev : Nat → Nat → List Nat
  | 0, _ => []
  | _ + 1, 0 => []
  | fuel + 1, n + 1 => ((n + 1) % 10) :: decDigitsRev fuel ((n + 1) / 10)

/-- Value of a little-endian digit list (left inverse of `decDigitsRev`). -/
def ofDigitsRev : List Nat → Nat
  | [] => 0
  | d :: ds => d + 10 * ofDigitsRev ds

/-- Decimal rendering of a natural number as a string, as Python's
`str`/f-string formatting of a non-negative `int` produces it. -/
def natDecimal (n : Nat) : String :=
  if n = 0 then "0"
  else String.mk (((decDigitsRev n n).reverse).map (fun d => Char.ofNat (48 + d)))

theorem decDigitsRev_lt_base (fuel n : Nat) :
    ∀ d ∈ decDigitsRev fuel n, d < 10 := by
  induction fuel generalizing n with
  | zero => simp [decDigitsRev]
  | succ fuel ih =>
    cases n with
    | zero => simp [decDigitsRev]
    | succ m =>
      intro d hd
      simp only [decDigitsRev, List.mem_cons] at hd
      rcases hd with h | h
      · subst h; exact Nat.mod_lt _ (by norm_num)
      · exact ih _ _ h

theorem ofDigitsRev_decDigitsRev (fuel n : Nat) (h : n ≤ fuel) :
    ofDigitsRev (decDigitsRev fuel n) = n := by
  induction fuel generalizing n with
  | zero =>
    interval_cases n
    simp [decDigitsRev, ofDigitsRev]
  | succ fuel ih =>
    cases n with
    | zero => simp [decDigitsRev, ofDigitsRev]
    | succ m =>
      have hdiv : (m + 1) / 10 ≤ fuel := by
        have h1 : (m + 1) / 10 < m + 1 := Nat.div_lt_self (Nat.succ_pos m) (by norm_num)
        omega
      simp only [decDigitsRev, ofDigitsRev, ih _ hdiv]
      omega

/-- Decode a decimal string back to its value (used only to prove
`natDecimal` injective). -/
def strVal (s : String) : Nat :=
  ofDigitsRev (s.data.reverse.map (fun c => c.toNat - 48))

theorem strVal_natDecimal (n : Nat) : strVal (natDecimal n) = n := by
  unfold natDecimal
  by_cases hn : n = 0
  · subst hn; simp [strVal, ofDigitsRev]
  · simp only [if_neg hn, strVal]
    have hrev :
        ({ data := List.map (fun d => Char.ofNat (48 + d)) (decDigitsRev n n).reverse
           : String }).data.reverse
        = List.map (fun d => Char.ofNat (48 + d)) (decDigitsRev n n) := by
      simp
    rw [hrev, List.map_map]
    have hmap :
        List.map ((fun c => c.toNat - 48) ∘ (fun d => Char.ofNat (48 + d)))
          (decDigitsRev n n) = decDigitsRev n n := by
      have h10 := decDigitsRev_lt_base n n
      calc List.map ((fun c => c.toNat - 48) ∘ (fun d => Char.ofNat (48 + d)))
              (decDigitsRev n n)
          = List.map id (decDigitsRev n n) := by
            apply List.map_congr_left
            intro d hd
            have : d < 10 := h10 d hd
            interval_cases d <;> rfl
        _ = decDigitsRev n n := List.map_id _
    rw [hmap, ofDigitsRev_decDigitsRev n n le_rfl]

theorem natDecimal_injective : Function.Injective natDecimal := by
  intro a b hab
  have := congrArg strVal hab
  rwa [strVal_natDecimal, strVal_natDecimal] at this

/-- Index of the last character satisfying `p`, or `none`.  Models Python
`str.rfind` (which returns `-1` when absent). -/
def rfindIdx (p : Char → Bool) : List Char → Option Nat
  | [] => none
  | c :: rest =>
    match rfindIdx p rest with
    | some j => some (j + 1)
    | none => if p c then some 0 else none

/-- Final path component: the part of the string after the last `/`.
Models `pathlib.Path(...).name` for POSIX paths. -/
def pyName (s : String) : String :=
  String.mk ((s.data.reverse.takeWhile (fun c => c ≠ '/')).reverse)

/-- Models `pathlib.Path(...).suffix`: with `name` the final component and
`i = name.rfind('.')`, the suffix is `name[i:]` when `0 < i < len(name) - 1`
and `''` otherwise. -/
def pySuffix (s : String) : String :=
  let name := (pyName s).data
  match rfindIdx (fun c => c = '.') name with
  | none => ""
  | some i => if 0 < i ∧ i < name.length - 1 then String.mk (name.drop i) else ""

/-- `helpers.get_file_extension`: `Path(filename).suffix.lower().lstrip('.')`.
Python's `str.lower` agrees with `Char.toLower` on the ASCII filenames in
scope, and `lstrip('.')` drops every leading dot. -/
def get_file_extension (filename : String) : String :=
  String.mk (((pySuffix filename).data.map Char.toLower).dropWhile (fun c => c = '.'))

/-- `helpers.is_supported_format`: membership of the extracted extension in
the configured list. -/
def is_supported_format (filename : String) (supported_formats : List String) : Bool :=
  supported_formats.contains (get_file_extension filename)

/-- `helpers.get_file_size_mb`: `st_size / (1024 * 1024)` when the file
exists, `0.0` otherwise.  The quotient of a byte count below `2^53` by
`2^20` is exact in IEEE-754 double precision, so the rational value is the
float the code computes; it is written as the single fraction
`mkRat n (1024 * 1024)`, proved equal to `(n : ℚ) / (1024 * 1024)`
below. -/
def get_file_size_mb (sizeBytes : Option Nat) : ℚ :=
  match sizeBytes with
  | some n => mkRat n (1024 * 1024)
  | none => 0

theorem get_file_size_mb_eq_div (n : Nat) :
    get_file_size_mb (some n) = (n : ℚ) / (1024 * 1024) := by
  simp [get_file_size_mb, Rat.mkRat_eq_div]
  norm_num

/-- A filesystem path as `ensure_unique_filename` manipulates it:
`parent`, `stem` and `suffix` of `pathlib.Path`, with the full path being
`dir / (stem ++ suffix)`.  Entries are kept in canonical decomposition
(the suffix starting at the last dot of the name), which the candidate
construction below preserves. -/
structure FsPath where
  dir : String
  stem : String
  suffix : String
deriving DecidableEq, Repr

/-- The candidate `original_path.parent / f"{stem}_{counter}{suffix}"`
built in each iteration of `ensure_unique_filename`'s loop. -/
def candidateName (orig : FsPath) (k : Nat) : FsPath :=
  ⟨orig.dir, orig.stem ++ "_" ++ natDecimal k, orig.suffix⟩

/-- The `while target_path.exists()` loop of `helpers.ensure_unique_filename`,
with the filesystem contents as an explicit list and structural fuel.
The source loop terminates because only finitely many paths exist; fuel
`fs.length + 1` is proved sufficient below. -/
def ensureUniqueLoop (fs : List FsPath) (orig : FsPath) : Nat → Nat → Option FsPath
  | 0, _ => none
  | fuel + 1, counter =>
    let cand := candidateName orig counter
    if cand ∈ fs then ensureUniqueLoop fs orig fuel (counter + 1) else some cand

/-- `helpers.ensure_unique_filename` over an explicit filesystem `fs`
(the set of existing paths): return `target` if it does not exist, else
append `_1`, `_2`, … to the stem until a free name is found. -/
def ensure_unique_filename (fs : List FsPath) (target : FsPath) : Option FsPath :=
  if target ∈ fs then ensureUniqueLoop fs target (fs.length + 1) 1 else some target

/-- Python slice `s[:stop]` for an `int` stop: negative values count from
the end and clamp at zero. -/
def pySliceTo (s : String) (stop : Int) : String :=
  let eff : Int := if stop < 0 then (s.length : Int) + stop else stop
  String.mk (s.data.take (max eff 0).toNat)

/-- `helpers.truncate_text`: return `text` unchanged when it fits, else
`text[:max_length-3] + "..."` (the slice index may wrap negative, exactly
as in Python). -/
def truncate_text (text : String) (maxLength : Int) : String :=
  if (text.length : Int) ≤ maxLength then text
  else pySliceTo text (maxLength - 3) ++ "..."

theorem candidateName_injective (orig : FsPath) :
    Function.Injective (candidateName orig) := by
  intro k₁ k₂ h
  have hstem : orig.stem ++ "_" ++ natDecimal k₁ = orig.stem ++ "_" ++ natDecimal k₂ := by
    have := congrArg FsPath.stem h
    simpa [candidateName] using this
  have hdata := congrArg String.data hstem
  simp only [String.data_append] at hdata
  have := List.append_cancel_left hdata
  exact natDecimal_injective (by
    apply congrArg String.mk at this
    simpa using this)

theorem ensureUniqueLoop_not_mem (fs : List FsPath) (orig : FsPath) :
    ∀ fuel counter p, ensureUniqueLoop fs orig fuel counter = some p → p ∉ fs := by
  intro fuel
  induction fuel with
  | zero => intro counter p h; simp [ensureUniqueLoop] at h
  | succ fuel ih =>
    intro counter p h
    simp only [ensureUniqueLoop] at h
    by_cases hc : candidateName orig counter ∈ fs
    · rw [if_pos hc] at h
      exact ih _ _ h
    · rw [if_neg hc] at h
      cases h
      exact hc

theorem ensureUniqueLoop_total (fs : List FsPath) (orig : FsPath) :
    ∀ fuel counter, (∃ i < fuel, candidateName orig (counter + i) ∉ fs) →
      ∃ p, ensureUniqueLoop fs orig fuel counter = some p := by
  intro fuel
  induction fuel with
  | zero => intro counter ⟨i, hi, _⟩; omega
  | succ fuel ih =>
    intro counter ⟨i, hi, hfree⟩
    simp only [ensureUniqueLoop]
    by_cases hc : candidateName orig counter ∈ fs
    · rw [if_pos hc]
      apply ih
      cases i with
      | zero => exact absurd hc (by simpa using hfree)
      | succ j => exact ⟨j, by omega, by
          have : counter + 1 + j = counter + (j + 1) := by omega
          rw [this]; exact hfree⟩
    · rw [if_neg hc]
      exact ⟨_, rfl⟩

theorem exists_free_candidate (fs : List FsPath) (orig : FsPath) (c : Nat) :
    ∃ i < fs.length + 1, candidateName orig (c + i) ∉ fs := by
  by_contra hall
  push_neg at hall
  set cands : List FsPath :=
    (List.range (fs.length + 1)).map (fun i => candidateName orig (c + i)) with hcands
  have hnodup : cands.Nodup := by
    apply List.Nodup.map
    · intro i₁ i₂ h
      have := candidateName_injective orig h
      omega
    · exact List.nodup_range _
  have hsub : cands ⊆ fs := by
    intro p hp
    simp only [hcands, List.mem_map, List.mem_range] at hp
    obtain ⟨i, hi, rfl⟩ := hp
    exact hall i hi
  have hcard : cands.toFinset.card = fs.length + 1 := by
    rw [List.toFinset_card_of_nodup hnodup]
    simp [hcands]
  have hle : cands.toFinset ⊆ fs.toFinset := by
    intro p hp
    rw [List.mem_toFinset] at hp ⊢
    exact hsub hp
  have := Finset.card_le_card hle
  have := fs.toFinset_card_le
  omega

/-- Regular-expression abstract syntax for the patterns appearing in
`invoice_processor.py`: single-character classes, concatenation, bounded
class repetition (greedy or lazy), star over a sub-pattern, and the single
capturing group. -/
inductive RE where
  | eps : RE
  | cls (p : Char → Bool) : RE
  | seq (a b : RE) : RE
  | rep (p : Char → Bool) (lo : Nat) (hi : Option Nat) (lazy : Bool) : RE
  | star (a : RE) : RE
  | grp (a : RE) : RE

/-- Structural size of a pattern, used to compute a sufficient fuel. -/
def RE.size : RE → Nat
  | .eps => 1
  | .cls _ => 1
  | .seq a b => a.size + b.size + 1
  | .rep _ _ _ _ => 1
  | .star a => a.size + 1
  | .grp a => a.size + 1

/-- Length of the maximal prefix of `cs` whose characters satisfy `p`. -/
def maxRun (p : Char → Bool) (cs : List Char) : Nat :=
  (cs.takeWhile p).length

/-- `[top, top-1, …, lo]` (empty when `top < lo`): the order in which a
greedy quantifier tries repetition counts. -/
def descRange (lo top : Nat) : List Nat :=
  (List.range (top + 1 - lo)).map (fun i => top - i)

/-- `[lo, lo+1, …, top]`: the order in which a lazy quantifier tries
repetition counts. -/
def ascRange (lo top : Nat) : List Nat :=
  (List.range (top + 1 - lo)).map (fun i => lo + i)

/-- Backtracking matcher in continuation-passing style, mirroring the order
in which Python's `re` explores alternatives: greedy quantifiers try longer
repetitions first, lazy ones shorter first, and a star prefers one more
(nonempty) iteration before exiting.  `cap` carries the text of the capture
group once closed.  The fuel argument is structural so the definition
evaluates inside the kernel; `reSearch` passes fuel that exceeds the
pattern-depth plus input-length bound on recursion depth. -/
def reMat : Nat → RE → List Char → Option (List Char) →
    (List Char → Option (List Char) → Option (List Char × Option (List Char))) →
    Option (List Char × Option (List Char))
  | 0, _, _, _, _ => none
  | fuel + 1, re, cs, cap, k =>
    match re with
    | .eps => k cs cap
    | .cls p =>
      match cs with
      | [] => none
      | c :: rest => if p c then k rest cap else none
    | .seq a b => reMat fuel a cs cap (fun rest cap' => reMat fuel b rest cap' k)
    | .rep p lo hi lazy =>
      let m := maxRun p cs
      let top := match hi with | none => m | some h => Nat.min h m
      let ks := if lazy then ascRange lo top else descRange lo top
      ks.findSome? (fun n => k (cs.drop n) cap)
    | .star a =>
      match reMat fuel a cs cap
          (fun rest cap' =>
            if rest.length < cs.length then reMat fuel (.star a) rest cap' k
            else none) with
      | some r => some r
      | none => k cs cap
    | .grp a =>
      reMat fuel a cs cap
        (fun rest _ => k rest (some (cs.take (cs.length - rest.length))))

/-- `re.search`: try every start position from the left, return the whole
matched text and the capture group of the first match found. -/
def reSearch (re : RE) (s : String) : Option (String × Option String) :=
  let cs := s.data
  let fuel := (re.size + 1) * (cs.length + 2) + 16
  (List.range (cs.length + 1)).findSome? (fun i =>
    let sub := cs.drop i
    match reMat fuel re sub none (fun rest cap => some (rest, cap)) with
    | some (rest, cap) =>
      some (String.mk (sub.take (sub.length - rest.length)), cap.map String.mk)
    | none => none)

/-- Case-insensitive literal, as a sequence of single-character classes
(all the fallback patterns are compiled with `re.IGNORECASE`). -/
def litCI (s : String) : RE :=
  s.data.foldr (fun c acc => RE.seq (.cls (fun d => d.toLower == c.toLower)) acc) .eps

/-- Case-sensitive literal (the JSON-fence pattern has no `IGNORECASE`). -/
def litCS (s : String) : RE :=
  s.data.foldr (fun c acc => RE.seq (.cls (fun d => d == c)) acc) .eps

/-- Concatenation of a pattern list. -/
def cat (rs : List RE) : RE :=
  rs.foldr .seq .eps

/-- The character class `[:\s]`. -/
def colonSpace (c : Char) : Bool := c = ':' || isPySpace c

/-- The character class `[^\n\r]`. -/
def notNL (c : Char) : Bool := !(c = '\n' || c = '\x0d')

/-- The character class `[0-9A-Za-z\-]`. -/
def alnumDash (c : Char) : Bool := c.isAlphanum || c = '-'

/-- The character class `[0-9,]`. -/
def digitComma (c : Char) : Bool := c.isDigit || c = ','

/-- The dash-or-slash character class of the slash-date pattern. -/
def dashSlash (c : Char) : Bool := c = '-' || c = '/'

/-- `[A-Z]` under `re.IGNORECASE`: any ASCII letter. -/
def letterCI (c : Char) : Bool := c.isUpper || c.isLower

/-- `{`, `}` and `[^{}]` written via code points to keep brace characters
out of string literals. -/
def isLB (c : Char) : Bool := c == Char.ofNat 123

/-- Closing-brace test. -/
def isRB (c : Char) : Bool := c == Char.ofNat 125

/-- The character class excluding both braces. -/
def notBraceC (c : Char) : Bool := !(isLB c || isRB c)

/-- `[:\s]*`. -/
def colonSpaceStar : RE := .rep colonSpace 0 none false

/-- `r'Invoice Number[:\s]*([^\n\r]+)'`. -/
def invPat1 : RE := cat [litCI "Invoice Number", colonSpaceStar, .grp (.rep notNL 1 none false)]

/-- `r'Invoice[:\s]*#?([0-9A-Za-z\-]+)'`. -/
def invPat2 : RE :=
  cat [litCI "Invoice", colonSpaceStar, .rep (fun c => c = '#') 0 (some 1) false,
    .grp (.rep alnumDash 1 none false)]

/-- `r'Invoice ID[:\s]*([^\n\r]+)'`. -/
def invPat3 : RE := cat [litCI "Invoice ID", colonSpaceStar, .grp (.rep notNL 1 none false)]

/-- `r'Invoice Date[:\s]*([^\n\r]+)'`. -/
def datePat1 : RE := cat [litCI "Invoice Date", colonSpaceStar, .grp (.rep notNL 1 none false)]

/-- The slash-date pattern: `Date`, colon-space filler, then one or two digits, dash or slash, one or two digits, dash or slash, two to four digits. -/
def datePat2 : RE :=
  cat [litCI "Date", colonSpaceStar,
    .grp (cat [.rep Char.isDigit 1 (some 2) false, .cls dashSlash,
      .rep Char.isDigit 1 (some 2) false, .cls dashSlash,
      .rep Char.isDigit 2 (some 4) false])]

/-- `r'Date[:\s]*([0-9]{1,2}-[A-Za-z]{3}-[0-9]{2,4})'`. -/
def datePat3 : RE :=
  cat [litCI "Date", colonSpaceStar,
    .grp (cat [.rep Char.isDigit 1 (some 2) false, .cls (fun c => c = '-'),
      .rep Char.isAlpha 3 (some 3) false, .cls (fun c => c = '-'),
      .rep Char.isDigit 2 (some 4) false])]

/-- `r'Vendor Name[:\s]*([^\n\r]+)'`. -/
def vendorPat1 : RE := cat [litCI "Vendor Name", colonSpaceStar, .grp (.rep notNL 1 none false)]

/-- `r'Company[:\s]*([^\n\r]+)'`. -/
def vendorPat2 : RE := cat [litCI "Company", colonSpaceStar, .grp (.rep notNL 1 none false)]

/-- `r'From[:\s]*([^\n\r]+)'`. -/
def vendorPat3 : RE := cat [litCI "From", colonSpaceStar, .grp (.rep notNL 1 none false)]

/-- The amount group `([0-9,]+\.?[0-9]*)` shared by the three total
patterns. -/
def amountGrp : RE :=
  .grp (cat [.rep digitComma 1 none false, .rep (fun c => c = '.') 0 (some 1) false,
    .rep Char.isDigit 0 none false])

/-- `r'Total Amount[:\s]*([0-9,]+\.?[0-9]*)'`. -/
def totalPat1 : RE := cat [litCI "Total Amount", colonSpaceStar, amountGrp]

/-- `r'Total[:\s]*([0-9,]+\.?[0-9]*)'`. -/
def totalPat2 : RE := cat [litCI "Total", colonSpaceStar, amountGrp]

/-- `r'Amount[:\s]*([0-9,]+\.?[0-9]*)'`. -/
def totalPat3 : RE := cat [litCI "Amount", colonSpaceStar, amountGrp]

/-- `r'Currency[:\s]*([A-Z]{3})'` with `IGNORECASE`. -/
def currencyPat : RE := cat [litCI "Currency", colonSpaceStar, .grp (.rep letterCI 3 (some 3) false)]

/-- The markdown-fence pattern ```` r'```json\s*\n(.*?)\n```' ```` compiled
with `re.DOTALL` (so `.` matches every character) and no `IGNORECASE`. -/
def fencePat : RE :=
  cat [litCS "```json", .rep isPySpace 0 none false, .cls (fun c => c = '\n'),
    .grp (.rep (fun _ => true) 0 none true), .cls (fun c => c = '\n'), litCS "```"]

/-- The direct JSON-object pattern matching one balanced level of nesting:
an opening brace, non-brace filler, any number of `{…}` sub-objects with
filler, and the closing brace. -/
def bracePat : RE :=
  cat [.cls isLB, .rep notBraceC 0 none false,
    .star (cat [.cls isLB, .rep notBraceC 0 none false, .cls isRB,
      .rep notBraceC 0 none false]),
    .cls isRB]

/-- Big-endian value of a digit string (for `float(...)` on the amount
strings produced by the total patterns). -/
def natOfDigits (cs : List Char) : Nat :=
  cs.foldl (fun acc c => acc * 10 + (c.toNat - 48)) 0

/-- Python `float(s)` restricted to the grammar the amount regex guarantees
after comma removal — digits with at most one dot.  `float('')` and
`float('.')` raise `ValueError`, modeled by `none`.  The decimal value
`int.frac` is the exact fraction `(int·10^k + frac) / 10^k` with `k` the
number of fractional digits, written as a single `mkRat`. -/
def pyFloatDec (s : String) : Option ℚ :=
  let cs := s.data
  if cs.all (fun c => c.isDigit || c = '.') ∧
      (cs.filter (fun c => c = '.')).length ≤ 1 ∧ cs.any Char.isDigit then
    let intPart := cs.takeWhile (fun c => c ≠ '.')
    let fracPart := (cs.dropWhile (fun c => c ≠ '.')).drop 1
    some (mkRat (natOfDigits intPart * 10 ^ fracPart.length + natOfDigits fracPart)
      (10 ^ fracPart.length))
  else none

/-- First-match-wins over an ordered pattern list, returning the stripped
capture group — the `for pattern in …: match = re.search(…); if match: …;
break` loops of `_extract_fallback_data`. -/
def firstGroupMatch (pats : List RE) (content : String) : Option String :=
  pats.findSome? (fun p =>
    match reSearch p content with
    | some (_, some g) => some (pyStrip g)
    | _ => none)

/-- The total-amount loop: on a match, strip commas and parse as float;
a `ValueError` falls through (`continue`) to the next pattern. -/
def extractTotalAmount (content : String) : Option ℚ :=
  [totalPat1, totalPat2, totalPat3].findSome? (fun p =>
    match reSearch p content with
    | some (_, some g) => pyFloatDec (String.mk (g.data.filter (fun c => c ≠ ',')))
    | _ => none)

/-- The currency extraction: a single `IGNORECASE` search whose capture is
upper-cased. -/
def extractCurrency (content : String) : Option String :=
  match reSearch currencyPat content with
  | some (_, some g) => some (String.mk (g.data.map Char.toUpper))
  | _ => none

/-- The five optionally-extracted fields of `_extract_fallback_data`
before the `setdefault` calls. -/
structure FallbackFields where
  invoice_number : Option String
  date : Option String
  vendor_name : Option String
  total_amount : Option ℚ
  currency : Option String
deriving Repr

/-- The regex-extraction phase of `_extract_fallback_data` (lines 216-273):
each field independently takes the first matching pattern's capture. -/
def extractFields (content : String) : FallbackFields where
  invoice_number := firstGroupMatch [invPat1, invPat2, invPat3] content
  date := firstGroupMatch [datePat1, datePat2, datePat3] content
  vendor_name := firstGroupMatch [vendorPat1, vendorPat2, vendorPat3] content
  total_amount := extractTotalAmount content
  currency := extractCurrency content

/-- A Python value as it appears in the fallback dict: a string, a float,
or the empty list (the only list value ever placed there is the
`line_items` default `[]`). -/
inductive PyVal where
  | str (s : String)
  | num (q : ℚ)
  | emptyList
deriving DecidableEq, Repr

/-- Python `==` on the fallback-dict values: same-type comparison compares
contents, and comparisons across `str`, `float` and `list` are `False`. -/
def pyEq : PyVal → PyVal → Bool
  | .str a, .str b => a == b
  | .num a, .num b => a == b
  | .emptyList, .emptyList => true
  | _, _ => false

/-- The dict's value list after the `setdefault` calls (lines 276-281):
`invoice_number`, `date`, `vendor_name` defaulting to `'UNKNOWN'`,
`total_amount` to `0.0`, `currency` to `'USD'`, `line_items` to `[]`.
Listed in key order; the dict's insertion order puts extracted keys first,
but the `any` below is order-insensitive. -/
def fallbackValues (f : FallbackFields) : List PyVal :=
  [ .str (f.invoice_number.getD "UNKNOWN"),
    .str (f.date.getD "UNKNOWN"),
    .str (f.vendor_name.getD "UNKNOWN"),
    .num (f.total_amount.getD 0),
    .str (f.currency.getD "USD"),
    .emptyList ]

/-- The post-default contents of the fallback dict. `line_items` is always
the empty list, so it is not carried as a field. -/
structure FallbackData where
  invoice_number : String
  date : String
  vendor_name : String
  total_amount : ℚ
  currency : String
deriving DecidableEq, Repr

/-- `InvoiceProcessorService._extract_fallback_data`: extract fields by
regex, fill defaults, and return the dict only when
`any(v != 'UNKNOWN' and v != 0.0 for v in data.values())` holds —
otherwise `None`. -/
def extract_fallback_data (content : String) : Option FallbackData :=
  let f := extractFields content
  if (fallbackValues f).any
      (fun v => !pyEq v (.str "UNKNOWN") && !pyEq v (.num 0)) then
    some ⟨f.invoice_number.getD "UNKNOWN", f.date.getD "UNKNOWN",
      f.vendor_name.getD "UNKNOWN", f.total_amount.getD 0, f.currency.getD "USD"⟩
  else none

/-- Whether the structured-JSON stages of `process_invoice_image` find
nothing: neither the markdown fence pattern nor the brace-object pattern
matches the response text. -/
def noJsonBlock (content : String) : Bool :=
  (reSearch fencePat content).isNone && (reSearch bracePat content).isNone

/-- The branch of `process_invoice_image` taken when no JSON block is found
(lines 180-187): use the fallback extraction if it returns data, else raise
`"No valid JSON found in AI response"`. -/
def parse_response_no_json (content : String) : Except String FallbackData :=
  match extract_fallback_data content with
  | some d => .ok d
  | none => .error "No valid JSON found in AI response"

/-- `src.models.ProcessingStatus`. -/
inductive ProcessingStatus where
  | pending
  | processing
  | success
  | failed
  | retry
deriving DecidableEq, Repr

/-- The typed per-file errors raised inside `process_single_file`'s `try`
block.  `sizeExceeded` carries the numbers interpolated into the f-string
message; every error arising inside `process_invoice_image` (model
unavailable, encode failure, inner AI timeout, parse failure) or in the
filesystem steps surfaces as an exception whose message is the carried
string; `fileTimeout` is the outer `asyncio.wait_for` expiry. -/
inductive PErr where
  | sizeExceeded (sizeMB maxMB : ℚ)
  | fileTimeout (seconds : ℚ)
  | pipelineError (msg : String)
deriving DecidableEq, Repr

/-- `src.models.ProcessingResult` (timestamps omitted: no claim inspects
them).  `invoice_data` carries the extracted record; the fallback record
type stands in for the full `InvoiceData` payload, whose field inventory no
claim inspects. -/
structure PResult where
  file_id : String
  original_filename : String
  processed_filename : String
  status : ProcessingStatus
  invoice_data : Option FallbackData
  error_message : Option PErr
  processing_time : Option ℚ
deriving DecidableEq, Repr

/-- The mutable state of `InvoiceProcessorService`: the result dict in
insertion order, the three counters of `self.stats` that the service ever
writes, the `average_processing_time` field of `self.stats` (written by no
method), the `is_processing` flag, a nonce supply modeling the fresh
timestamp-and-UUID pair drawn by each `generate_file_id` call, and an
instrumentation counter of `process_invoice_image` invocations (each of
which submits one model request). -/
structure ProcState where
  processing_results : List (String × PResult)
  total_processed : Nat
  successful : Nat
  failed : Nat
  average_processing_time : ℚ
  is_processing : Bool
  nonce : Nat
  pipelineCalls : Nat
deriving DecidableEq, Repr

/-- The freshly constructed service state. -/
def initState : ProcState :=
  ⟨[], 0, 0, 0, 0, false, 0, 0⟩

/-- Python dict assignment `d[k] = v`: replace in place if the key exists,
else append. -/
def dictInsert (k : String) (v : PResult) (l : List (String × PResult)) :
    List (String × PResult) :=
  if l.any (fun p => p.1 == k) then l.map (fun p => bif p.1 == k then (k, v) else p)
  else l ++ [(k, v)]

/-- `helpers.generate_file_id`: `md5(f"{filename}_{timestamp}_{uuid4()}")
.hexdigest()[:16]`.  The per-call freshness of the timestamp and UUID is
modeled by the nonce, and the hash's intended collision-freeness by an
injective encoding of the pair. -/
def generate_file_id (filename : String) (nonce : Nat) : String :=
  filename ++ "_" ++ natDecimal nonce

/-- The per-call environment of one `process_single_file` run: the file's
size on disk (`none` when missing, in which case `get_file_size_mb`
reports `0.0`), the outcome of awaiting `process_invoice_image` under the
outer timeout, the elapsed wall time observed at the terminal transition,
the (collision-resolved) name of the JSON artifact, and any error raised
by the artifact-write / copy / unlink steps. -/
structure FileEnv where
  sizeBytes : Option Nat
  pipelineResult : Except PErr FallbackData
  elapsed : ℚ
  jsonName : String
  fsError : Option PErr
deriving Repr

/-- The idempotency guard of `process_single_file` (lines 289-294): with
`force_reprocess` unset, a stored result under this `file_id` whose status
is `SUCCESS` is returned as-is. -/
def cacheHit (results : List (String × PResult)) (file_id : String)
    (force_reprocess : Bool) : Option PResult :=
  if force_reprocess then none
  else
    match List.lookup file_id results with
    | some r => if r.status = .success then some r else none
    | none => none

/-- The outcome of the `try` block of `process_single_file` (lines
307-345): the size check, then the pipeline call under the outer timeout,
then the filesystem steps.  First error wins, exactly as the first raise
leaves the block. -/
def bodyOutcome (env : FileEnv) (maxMB : ℚ) : Except PErr FallbackData :=
  let sizeMB := get_file_size_mb env.sizeBytes
  if sizeMB > maxMB then .error (.sizeExceeded sizeMB maxMB)
  else
    match env.pipelineResult with
    | .error e => .error e
    | .ok d =>
      match env.fsError with
      | some e => .error e
      | none => .ok d

/-- `InvoiceProcessorService.process_single_file`: generate a file id,
consult the idempotency guard, otherwise run the body, catch any error,
record a terminal result in the dict and bump the counters, and return the
result normally in every case. -/
def process_single_file (env : FileEnv) (maxMB : ℚ) (fileName : String)
    (force_reprocess : Bool) (st : ProcState) : PResult × ProcState :=
  let file_id := generate_file_id fileName st.nonce
  let st1 := { st with nonce := st.nonce + 1 }
  match cacheHit st1.processing_results file_id force_reprocess with
  | some cached => (cached, st1)
  | none =>
    let st2 :=
      if get_file_size_mb env.sizeBytes > maxMB then st1
      else { st1 with pipelineCalls := st1.pipelineCalls + 1 }
    match bodyOutcome env maxMB with
    | .ok d =>
      let r : PResult :=
        ⟨file_id, fileName, env.jsonName, .success, some d, none, some env.elapsed⟩
      (r, { st2 with
        processing_results := dictInsert file_id r st2.processing_results,
        total_processed := st2.total_processed + 1,
        successful := st2.successful + 1 })
    | .error e =>
      let r : PResult :=
        ⟨file_id, fileName, "", .failed, none, some e, some env.elapsed⟩
      (r, { st2 with
        processing_results := dictInsert file_id r st2.processing_results,
        total_processed := st2.total_processed + 1,
        failed := st2.failed + 1 })

/-- A directory entry of the intake folder as the sweep sees it. -/
structure IntakeFile where
  name : String
  isFile : Bool
deriving DecidableEq, Repr

/-- The file-selection of the periodic sweep (lines 401-406 of
`process_files`): regular files whose lower-cased extension is supported.
The inline `file_path.suffix.lower().lstrip('.')` is the same computation
as `helpers.get_file_extension`. -/
def sweepSelect (incoming : List IntakeFile) (supported : List String) :
    List IntakeFile :=
  incoming.filter (fun f => f.isFile && supported.contains (get_file_extension f.name))

/-- `InvoiceProcessorService.process_files` in its sweep form
(`specific_file=None`): a no-op when `is_processing` is already set, else
select the supported files of the intake folder and run
`process_single_file` on each (the batching only groups these same calls;
`asyncio.gather(..., return_exceptions=True)` collects outcomes without
reordering which files are dispatched). -/
def process_files_sweep (envs : String → FileEnv) (maxMB : ℚ)
    (incoming : List IntakeFile) (supported : List String)
    (force_reprocess : Bool) (st : ProcState) : ProcState :=
  if st.is_processing then st
  else
    let files := sweepSelect incoming supported
    let st1 := { st with is_processing := true }
    let st2 := files.foldl
      (fun s f => (process_single_file (envs f.name) maxMB f.name force_reprocess s).2) st1
    { st2 with is_processing := false }

/-- `src.models.SystemStats` (without the `uptime` string, which no claim
inspects). -/
structure SystemStats where
  total_processed : Nat
  successful : Nat
  failed : Nat
  pending : Nat
  processing : Nat
  average_processing_time : ℚ
deriving DecidableEq, Repr

/-- `InvoiceProcessorService.get_statistics`: recount the
`PROCESSING`-status entries, recount the supported files still in intake,
and return `self.stats` — whose `average_processing_time` field no code
path ever assigns. -/
def get_statistics (st : ProcState) (incoming : List IntakeFile)
    (supported : List String) : SystemStats where
  total_processed := st.total_processed
  successful := st.successful
  failed := st.failed
  pending := (incoming.filter
    (fun f => f.isFile && supported.contains (get_file_extension f.name))).length
  processing := (st.processing_results.filter
    (fun p => p.2.status = .processing)).length
  average_processing_time := st.average_processing_time

/-- Stated from the claim's words, for comparison with `get_statistics`:
the mean of `processing_time` over the result store's success entries. -/
def meanSuccessTime (st : ProcState) : ℚ :=
  let ts := (st.processing_results.filter (fun p => p.2.status = .success)).filterMap
    (fun p => p.2.processing_time)
  if ts.length = 0 then 0 else ts.sum / ts.length

/-- Looking up a key right after the dict assignment `d[k] = v` yields `v`. -/
theorem lookup_dictInsert (k : String) (v : PResult) (l : List (String × PResult)) :
    List.lookup k (dictInsert k v l) = some v := by
  unfold dictInsert
  by_cases h : l.any (fun p => p.1 == k)
  · rw [if_pos h]
    induction l with
    | nil => simp at h
    | cons a t ih =>
      obtain ⟨a1, a2⟩ := a
      by_cases ha : a1 = k
      · subst ha
        simp [List.lookup, beq_self_eq_true]
      · have hbeq : (a1 == k) = false := by simp [ha]
        have hkeq : (k == a1) = false := by simp [Ne.symm ha]
        simp only [List.map_cons, hbeq, cond_false, List.lookup, hkeq]
        apply ih
        simpa [List.any_cons, hbeq] using h
  · rw [if_neg h]
    induction l with
    | nil => simp [List.lookup]
    | cons a t ih =>
      simp only [List.any_cons, Bool.or_eq_true, not_or] at h
      have hkeq : (k == a.1) = false := by
        rcases h with ⟨h1, _⟩
        simp only [Bool.not_eq_true] at h1
        simp only [beq_eq_false_iff_ne] at h1 ⊢
        exact Ne.symm h1
      simp only [List.cons_append, List.lookup, hkeq]
      exact ih (by simpa using h.2)

/-- A per-call environment in which every step succeeds: a 5-byte file, a
pipeline returning the all-default record, elapsed time 3/2 s. -/
def envSuccess : FileEnv :=
  ⟨some 5, .ok ⟨"UNKNOWN", "UNKNOWN", "UNKNOWN", 0, "USD"⟩, mkRat 3 2, "out.json", none⟩

/-- The default supported-format list of `config.settings`
(`"jpg,jpeg,png,pdf,tiff"` split on commas). -/
def defaultFormats : List String :=
  ["jpg", "jpeg", "png", "pdf", "tiff"]

/-- C7 — Unique filename generation: for every filesystem and target,
`ensure_unique_filename` returns (within the proved-sufficient fuel) a path
that does not already exist; concretely, with `a.jpg`, `a_1.jpg`, `a_2.jpg`
present, requesting uniqueness for `a.jpg` yields `a_3.jpg`. -/
theorem c7_ensure_unique_filename (fs : List FsPath) (target : FsPath) :
    (∃ p, ensure_unique_filename fs target = some p ∧ p ∉ fs) ∧
    ensure_unique_filename
      [⟨"", "a", ".jpg"⟩, ⟨"", "a_1", ".jpg"⟩, ⟨"", "a_2", ".jpg"⟩]
      ⟨"", "a", ".jpg"⟩ = some ⟨"", "a_3", ".jpg"⟩ := by
  constructor
  · unfold ensure_unique_filename
    by_cases h : target ∈ fs
    · rw [if_pos h]
      obtain ⟨i, hi, hfree⟩ := exists_free_candidate fs target 1
      obtain ⟨p, hp⟩ := ensureUniqueLoop_total fs target (fs.length + 1) 1 ⟨i, hi, hfree⟩
      exact ⟨p, hp, ensureUniqueLoop_not_mem fs target _ _ _ hp⟩
    · rw [if_neg h]
      exact ⟨target, rfl, h⟩
  · decide

/-- C8 — Format check: `is_supported_format` returns true exactly when the
filename's lower-cased extension (suffix after the last dot, lower-cased,
leading dot stripped) belongs to the configured list; `INVOICE.PDF` and
`invoice.pdf` always yield the same answer. -/
theorem c8_is_supported_format (filename : String) (supported : List String) :
    (is_supported_format filename supported = true ↔
      String.mk (((pySuffix filename).data.map Char.toLower).dropWhile (fun c => c = '.'))
        ∈ supported) ∧
    is_supported_format "INVOICE.PDF" supported = is_supported_format "invoice.pdf" supported := by
  constructor
  · rw [is_supported_format, List.elem_iff]
    rfl
  · have h : get_file_extension "INVOICE.PDF" = get_file_extension "invoice.pdf" := by decide
    rw [is_supported_format, is_supported_format, h]

/-- C9 — Fallback field extraction: on the prose-only response containing
`Invoice Number: INV-77` and `Total: 450.00`, `_extract_fallback_data`
yields `invoice_number = "INV-77"` and `total_amount = 450.0`; with a
thousands separator (`1,450.00`) the comma is stripped before the float
parse, yielding `1450.0`. -/
theorem c9_fallback_extraction :
    extract_fallback_data "Invoice Number: INV-77\nTotal: 450.00" =
      some ⟨"INV-77", "UNKNOWN", "UNKNOWN", 450, "USD"⟩ ∧
    extractTotalAmount "Invoice Number: INV-77\nTotal: 1,450.00" = some 1450 := by
  exact ⟨by decide, by decide⟩

/-- C10 — `truncate_text` length bound: for `max_length ≥ 3` the result is
at most `max_length` characters and equals the input exactly when the
input already fits; the precondition is necessary, as `max_length = 2` on
`"abcdef"` wraps the slice negative and produces 8 characters. -/
theorem c10_truncate_text (text : String) (maxLength : Int) (h : 3 ≤ maxLength) :
    ((truncate_text text maxLength).length : Int) ≤ maxLength ∧
    (truncate_text text maxLength = text ↔ (text.length : Int) ≤ maxLength) ∧
    2 < ((truncate_text "abcdef" 2).length : Int) := by
  refine ⟨?_, ?_, by decide⟩ <;> by_cases hle : (text.length : Int) ≤ maxLength
  · rw [truncate_text, if_pos hle]
    exact hle
  · have hlen : (truncate_text text maxLength).length = (maxLength - 3).toNat + 3 := by
      rw [truncate_text, if_neg hle, pySliceTo]
      have heff : ¬ (maxLength - 3 < 0) := by omega
      rw [if_neg heff, String.length_append]
      have hmk : ∀ l : List Char, (String.mk l).length = l.length := fun _ => rfl
      rw [hmk, List.length_take]
      have htl : text.length = text.data.length := rfl
      have : max (maxLength - 3) 0 = maxLength - 3 := by omega
      rw [this]
      have hmin : min ((maxLength - 3).toNat) text.data.length = (maxLength - 3).toNat := by
        omega
      rw [hmin]
      rfl
    rw [hlen]
    omega
  · rw [truncate_text, if_pos hle]
    simpa using hle
  · have hlen : (truncate_text text maxLength).length = (maxLength - 3).toNat + 3 := by
      rw [truncate_text, if_neg hle, pySliceTo]
      have heff : ¬ (maxLength - 3 < 0) := by omega
      rw [if_neg heff, String.length_append]
      have hmk : ∀ l : List Char, (String.mk l).length = l.length := fun _ => rfl
      rw [hmk, List.length_take]
      have htl : text.length = text.data.length := rfl
      have : max (maxLength - 3) 0 = maxLength - 3 := by omega
      rw [this]
      have hmin : min ((maxLength - 3).toNat) text.data.length = (maxLength - 3).toNat := by
        omega
      rw [hmin]
      rfl
    apply iff_of_false
    · intro heq
      have := congrArg String.length heq
      rw [hlen] at this
      omega
    · exact hle

/-- C10 witness at `text = "abcdefgh"`, `max_length = 5`. -/
theorem c10_truncate_text_witness :
    ((truncate_text "abcdefgh" 5).length : Int) ≤ 5 ∧
    (truncate_text "abcdefgh" 5 = "abcdefgh" ↔ (("abcdefgh" : String).length : Int) ≤ 5) ∧
    2 < ((truncate_text "abcdef" 2).length : Int) :=
  c10_truncate_text "abcdefgh" 5 (by decide)

/-- C2 — Parser on pure noise: on `"zzz qqq"` neither structured-JSON stage
matches, every extracted field is the sentinel default, and yet
`_extract_fallback_data` returns the record (`currency='USD'` and
`line_items=[]` satisfy the `any(...)` validity check), so the no-JSON
branch of `process_invoice_image` returns an `InvoiceData` instead of
signalling extraction failure — refuting the claim that an all-sentinel
fallback yields no data. -/
theorem c2_noise_returns_record :
    noJsonBlock "zzz qqq" = true ∧
    extract_fallback_data "zzz qqq" = some ⟨"UNKNOWN", "UNKNOWN", "UNKNOWN", 0, "USD"⟩ ∧
    parse_response_no_json "zzz qqq" = .ok ⟨"UNKNOWN", "UNKNOWN", "UNKNOWN", 0, "USD"⟩ := by
  exact ⟨by decide, by decide, rfl⟩

/-- C1 counterexample — two successive `process_single_file` calls on the
same path: the first succeeds and is recorded, yet the second call draws a
fresh timestamp/UUID, computes a different `file_id`, misses the
idempotency guard, invokes the model again (`pipelineCalls` reaches 2) and
returns a result different from the cached one. -/
theorem c1_idempotence_counterexample :
    (process_single_file envSuccess 10 "a.jpg" false initState).1.status = .success ∧
    List.lookup (process_single_file envSuccess 10 "a.jpg" false initState).1.file_id
      (process_single_file envSuccess 10 "a.jpg" false initState).2.processing_results =
      some (process_single_file envSuccess 10 "a.jpg" false initState).1 ∧
    (process_single_file envSuccess 10 "a.jpg" false
      (process_single_file envSuccess 10 "a.jpg" false initState).2).2.pipelineCalls = 2 ∧
    (process_single_file envSuccess 10 "a.jpg" false
      (process_single_file envSuccess 10 "a.jpg" false initState).2).1.file_id ≠
      (process_single_file envSuccess 10 "a.jpg" false initState).1.file_id := by
  exact ⟨by decide, by decide, by decide, by decide⟩

/-- C1 amended — the cached result is returned, with no model invocation
and no other state change, exactly when the freshly computed `file_id`
already maps to a `success` record and `force_reprocess` is unset; because
`generate_file_id` mixes in a fresh timestamp and UUID, a repeat call
computes a different id and does not take this path. -/
theorem c1_idempotence_amended (env : FileEnv) (maxMB : ℚ) (fileName : String)
    (st : ProcState) (r : PResult)
    (hlook : List.lookup (generate_file_id fileName st.nonce) st.processing_results = some r)
    (hsucc : r.status = .success) :
    process_single_file env maxMB fileName false st =
      (r, { st with nonce := st.nonce + 1 }) := by
  have hcache : cacheHit st.processing_results (generate_file_id fileName st.nonce) false
      = some r := by
    unfold cacheHit
    rw [if_neg (by simp), hlook]
    simp [hsucc]
  simp only [process_single_file]
  rw [show ({ st with nonce := st.nonce + 1 } : ProcState).processing_results
      = st.processing_results from rfl, hcache]

/-- C1 amended, witnessed on a store seeded with a success record under the
very id the next call computes. -/
theorem c1_idempotence_amended_witness :
    process_single_file envSuccess 10 "a.jpg" false
      { initState with processing_results :=
          [("a.jpg_0", ⟨"a.jpg_0", "a.jpg", "prior.json", .success, none, none, some 1⟩)] } =
      (⟨"a.jpg_0", "a.jpg", "prior.json", .success, none, none, some 1⟩,
        { initState with
          processing_results :=
            [("a.jpg_0", ⟨"a.jpg_0", "a.jpg", "prior.json", .success, none, none, some 1⟩)],
          nonce := 1 }) :=
  c1_idempotence_amended envSuccess 10 "a.jpg"
    { initState with processing_results :=
        [("a.jpg_0", ⟨"a.jpg_0", "a.jpg", "prior.json", .success, none, none, some 1⟩)] }
    ⟨"a.jpg_0", "a.jpg", "prior.json", .success, none, none, some 1⟩ (by decide) rfl

/-- C5 — Error containment: whenever the idempotency guard does not fire
and the body of `process_single_file` raises any per-file error (size
check, pipeline/model/timeout/parse, filesystem steps), the function still
returns normally, with a `failed` result carrying that error message and a
processing time, and the result is recorded in the store under its id. -/
theorem c5_error_containment (env : FileEnv) (maxMB : ℚ) (fileName : String)
    (force : Bool) (st : ProcState) (e : PErr)
    (hmiss : cacheHit st.processing_results (generate_file_id fileName st.nonce) force = none)
    (herr : bodyOutcome env maxMB = .error e) :
    (process_single_file env maxMB fileName force st).1.status = .failed ∧
    (process_single_file env maxMB fileName force st).1.error_message = some e ∧
    (process_single_file env maxMB fileName force st).1.processing_time = some env.elapsed ∧
    List.lookup (generate_file_id fileName st.nonce)
      (process_single_file env maxMB fileName force st).2.processing_results =
      some (process_single_file env maxMB fileName force st).1 := by
  simp only [process_single_file]
  rw [show ({ st with nonce := st.nonce + 1 } : ProcState).processing_results
      = st.processing_results from rfl, hmiss, herr]
  exact ⟨rfl, rfl, rfl, lookup_dictInsert _ _ _⟩

/-- C5 witnessed on an oversized file (11 MB against a 10 MB limit) in a
fresh store. -/
theorem c5_error_containment_witness :
    (process_single_file ⟨some (11 * 1048576), .ok ⟨"UNKNOWN", "UNKNOWN", "UNKNOWN", 0, "USD"⟩,
        mkRat 1 2, "x.json", none⟩ 10 "big.jpg" false initState).1.status = .failed ∧
    (process_single_file ⟨some (11 * 1048576), .ok ⟨"UNKNOWN", "UNKNOWN", "UNKNOWN", 0, "USD"⟩,
        mkRat 1 2, "x.json", none⟩ 10 "big.jpg" false initState).1.error_message =
      some (.sizeExceeded (mkRat (11 * 1048576) 1048576) 10) ∧
    (process_single_file ⟨some (11 * 1048576), .ok ⟨"UNKNOWN", "UNKNOWN", "UNKNOWN", 0, "USD"⟩,
        mkRat 1 2, "x.json", none⟩ 10 "big.jpg" false initState).1.processing_time =
      some (mkRat 1 2) ∧
    List.lookup (generate_file_id "big.jpg" 0)
      (process_single_file ⟨some (11 * 1048576), .ok ⟨"UNKNOWN", "UNKNOWN", "UNKNOWN", 0, "USD"⟩,
          mkRat 1 2, "x.json", none⟩ 10 "big.jpg" false initState).2.processing_results =
      some (process_single_file ⟨some (11 * 1048576), .ok ⟨"UNKNOWN", "UNKNOWN", "UNKNOWN", 0,
          "USD"⟩, mkRat 1 2, "x.json", none⟩ 10 "big.jpg" false initState).1 :=
  c5_error_containment ⟨some (11 * 1048576), .ok ⟨"UNKNOWN", "UNKNOWN", "UNKNOWN", 0, "USD"⟩,
      mkRat 1 2, "x.json", none⟩ 10 "big.jpg" false initState
    (.sizeExceeded (mkRat (11 * 1048576) 1048576) 10) rfl rfl

/-- C6 — Size boundary: the size check fails exactly when the byte count
exceeds `max_file_size_mb` megabytes; a file of exactly `m` MB passes the
validation (the run succeeds when everything else does), while one byte
more is rejected with the size-exceeded failure recorded. -/
theorem c6_size_boundary (m : Nat) (d : FallbackData) (t : ℚ) (jn : String) :
    (∀ sizeBytes : Nat,
      (get_file_size_mb (some sizeBytes) > (m : ℚ) ↔ m * 1048576 < sizeBytes)) ∧
    (process_single_file ⟨some (m * 1048576), .ok d, t, jn, none⟩ m "a.jpg" false
      initState).1.status = .success ∧
    (process_single_file ⟨some (m * 1048576 + 1), .ok d, t, jn, none⟩ m "a.jpg" false
      initState).1.status = .failed ∧
    (process_single_file ⟨some (m * 1048576 + 1), .ok d, t, jn, none⟩ m "a.jpg" false
      initState).1.error_message =
      some (.sizeExceeded (get_file_size_mb (some (m * 1048576 + 1))) m) := by
  have hiff : ∀ sizeBytes : Nat,
      (get_file_size_mb (some sizeBytes) > (m : ℚ) ↔ m * 1048576 < sizeBytes) := by
    intro n
    rw [get_file_size_mb_eq_div, gt_iff_lt, lt_div_iff₀ (by norm_num)]
    constructor
    · intro h
      exact_mod_cast h
    · intro h
      exact_mod_cast h
  have hexact : ¬ (get_file_size_mb (some (m * 1048576)) > (m : ℚ)) := by
    rw [hiff]
    omega
  have hover : get_file_size_mb (some (m * 1048576 + 1)) > (m : ℚ) := by
    rw [hiff]
    omega
  have hbodyOk : bodyOutcome ⟨some (m * 1048576), .ok d, t, jn, none⟩ m = .ok d := by
    simp only [bodyOutcome]
    rw [if_neg hexact]
  have hbodyErr : bodyOutcome ⟨some (m * 1048576 + 1), .ok d, t, jn, none⟩ m =
      .error (.sizeExceeded (get_file_size_mb (some (m * 1048576 + 1))) m) := by
    simp only [bodyOutcome]
    rw [if_pos hover]
  refine ⟨hiff, ?_, ?_, ?_⟩
  · simp only [process_single_file]
    rw [show cacheHit initState.processing_results
        (generate_file_id "a.jpg" initState.nonce) false = none from rfl, hbodyOk]
  · simp only [process_single_file]
    rw [show cacheHit initState.processing_results
        (generate_file_id "a.jpg" initState.nonce) false = none from rfl, hbodyErr]
  · simp only [process_single_file]
    rw [show cacheHit initState.processing_results
        (generate_file_id "a.jpg" initState.nonce) false = none from rfl, hbodyErr]

/-- C3 — the repository's own test expects the mean over success entries
(1.5 s here), but `get_statistics` never assigns `average_processing_time`:
after one successful run with elapsed time 3/2 s the store holds one
success entry with mean 3/2, yet the reported average is still 0. -/
theorem c3_statistics_average :
    (get_statistics (process_single_file envSuccess 10 "a.jpg" false initState).2 []
      defaultFormats).average_processing_time = 0 ∧
    (process_single_file envSuccess 10 "a.jpg" false initState).2.successful = 1 ∧
    meanSuccessTime (process_single_file envSuccess 10 "a.jpg" false initState).2 = 3 / 2 := by
  refine ⟨by decide, by decide, ?_⟩
  have h : ((process_single_file envSuccess 10 "a.jpg" false
      initState).2.processing_results.filter (fun p => p.2.status = .success)).filterMap
      (fun p => p.2.processing_time) = [mkRat 3 2] := by
    decide
  simp only [meanSuccessTime, h]
  norm_num [Rat.mkRat_eq_div]

/-- C4 counterexample — a path whose record in the store is still
`processing` (in flight via the event-driven path) sits in the intake
folder; the periodic sweep selects it anyway and dispatches it to
processing (one more model invocation), because the sweep's selection
consults only extensions, never the in-flight or success tracking the
claim asserts. -/
theorem c4_dedup_counterexample :
    (⟨"a.jpg_0", "a.jpg", "", .processing, none, none, none⟩ : PResult).status = .processing ∧
    sweepSelect [⟨"a.jpg", true⟩] defaultFormats = [⟨"a.jpg", true⟩] ∧
    (process_files_sweep (fun _ => envSuccess) 10 [⟨"a.jpg", true⟩] defaultFormats false
      { initState with
        processing_results :=
          [("a.jpg_0", ⟨"a.jpg_0", "a.jpg", "", .processing, none, none, none⟩)],
        nonce := 1 }).pipelineCalls = 1 := by
  exact ⟨by decide, by decide, by decide⟩

/-- C4 amended — what the code guarantees instead: within one sweep each
intake path is selected at most once (the directory listing has no
duplicates and filtering preserves that), and the `is_processing` flag
makes a sweep a no-op while another sweep is running; there is no
in-flight or success tracking, so the event path and the sweep can both
dispatch the same path. -/
theorem c4_sweep_amended (incoming : List IntakeFile) (supported : List String)
    (envs : String → FileEnv) (maxMB : ℚ) (force : Bool) (st : ProcState)
    (hnd : (incoming.map IntakeFile.name).Nodup) :
    ((sweepSelect incoming supported).map IntakeFile.name).Nodup ∧
    (st.is_processing = true →
      process_files_sweep envs maxMB incoming supported force st = st) := by
  constructor
  · exact hnd.sublist ((List.filter_sublist incoming).map IntakeFile.name)
  · intro hp
    simp only [process_files_sweep, hp, if_true]

/-- C4 amended, witnessed on a two-file intake listing and a state already
marked as processing. -/
theorem c4_sweep_amended_witness :
    ((sweepSelect [⟨"a.jpg", true⟩, ⟨"b.png", true⟩] defaultFormats).map
      IntakeFile.name).Nodup ∧
    (({ initState with is_processing := true } : ProcState).is_processing = true →
      process_files_sweep (fun _ => envSuccess) 10 [⟨"a.jpg", true⟩, ⟨"b.png", true⟩]
        defaultFormats false { initState with is_processing := true } =
        { initState with is_processing := true }) :=
  c4_sweep_amended [⟨"a.jpg", true⟩, ⟨"b.png", true⟩] defaultFormats (fun _ => envSuccess)
    10 false { initState with is_processing := true } (by decide)

end Invoice
